import Mathlib

/-!
Shallow embedding of `marft/algorithms/tppo_trainer.py` (class `TPPOTrainer`).

Numeric carrier: ℝ.  Floating-point NaN is represented by `Option.none`
wherever the source can produce it (a masked mean with an all-zero mask is
`0/0 = NaN`; the statistics of an all-`NaN` advantage array are `NaN`), and a
`none` poisons every arithmetic combination, matching IEEE NaN propagation.
The comparison `NaN > t` is false in Python, which the KL gate below mirrors.

External collaborators (the MAS forward passes `get_token_values` and
`get_token_logits` followed by log-softmax/gather/entropy, and the gradient
norms returned by `clip_grad_norm_` / `get_gard_norm`) are supplied by an
`Oracle`: the trainer consumes their outputs pointwise, so the oracle carries
the full-batch tensors and per-agent norms, and the trainer slices them
exactly where the source slices its tensors.

Tensors of shape (batch, num_agents, tokens) are nested lists
(`List (List (List ℝ))`); elementwise tensor operations are nested
`List.zipWith` / `List.map`, and global reductions flatten.  Per-sample data
is flattened to a token stream (`List ℝ`) before the loss reductions, which
only ever take sums over all entries, exactly as the source's `.sum()` does.

Optimizer side effects are ghost fields of `UpdateOut`: which optimizers
stepped, and whether gradient clipping was invoked before the step.
-/

namespace TPPO

/-- A (num_agents × tokens) slice of a tensor: one sample. -/
abbrev Mat := List (List ℝ)

/-- A (batch × num_agents × tokens) tensor. -/
abbrev Ten3 := List Mat

/-- Elementwise binary operation on two 2-d tensors (`torch` broadcasting-free case). -/
def map2 (f : ℝ → ℝ → ℝ) (a b : Mat) : Mat :=
  List.zipWith (List.zipWith f) a b

/-- Elementwise unary operation on a 2-d tensor. -/
def map1 (f : ℝ → ℝ) (a : Mat) : Mat :=
  a.map (List.map f)

/-- Sum of every entry of a 2-d tensor (`tensor.sum()`). -/
def sum2 (a : Mat) : ℝ :=
  (a.map List.sum).sum

/-- `torch.clamp(x, lo, hi) = min(max(x, lo), hi)`. -/
def clampR (x lo hi : ℝ) : ℝ :=
  min (max x lo) hi

/-- NaN-propagating addition of diagnostics accumulators. -/
def optAdd : Option ℝ → Option ℝ → Option ℝ
  | some a, some b => some (a + b)
  | _, _ => none

/-- Flatten one sample's (agents × tokens) slice to its token stream. -/
def flat2 (m : Mat) : List ℝ :=
  m.flatten

/-- Flatten a full (batch × agents × tokens) tensor to its token stream. -/
def flat3 (t : Ten3) : List ℝ :=
  (t.map flat2).flatten

/-- `cal_token_mask`: 1 where the action token differs from the pad token, else 0
(source line 50: `(action_tokens_batch != pad_token).int()`). -/
def cal_token_mask (pad : ℤ) (toks : List (List (List ℤ))) : Ten3 :=
  toks.map (fun s => s.map (fun r => r.map (fun t => if t = pad then (0 : ℝ) else 1)))

/-- Modelled from the spec: `mse_loss` lives in `marft/utils/util.py`, outside the
sources given here; §4.1 of the spec calls it "mean-squared-error", applied per
element before the masked mean. -/
def mse_loss (e : ℝ) : ℝ :=
  e ^ 2

/-- Modelled from the spec: `huber_loss` lives in `marft/utils/util.py`, outside the
sources given here; §4.1 of the spec calls it "Huber loss (configurable delta)",
the standard quadratic-below-delta, linear-above-delta penalty, per element. -/
noncomputable def huber_loss (δ e : ℝ) : ℝ :=
  if |e| ≤ δ then e ^ 2 / 2 else δ * (|e| - δ / 2)

/-- `cal_value_loss` (source lines 69-83) on one chunk, whose tensors are given as
(chunk × flattened-token-stream) nested lists.  Returns `none` (NaN) when the
chunk's token mask sums to zero, since the source divides by `token_mask.sum()`. -/
noncomputable def cal_value_loss (clip_param value_loss_coef huber_delta : ℝ)
    (use_huber_loss : Bool) (values_infer value_preds returns mask : Mat) : Option ℝ :=
  let value_pred_clipped := map2 (fun p i => p + clampR (i - p) (-clip_param) clip_param)
    value_preds values_infer
  let error_clipped := map2 (· - ·) returns value_pred_clipped
  let error_unclipped := map2 (· - ·) returns values_infer
  let value_loss_clipped :=
    if use_huber_loss then map1 (huber_loss huber_delta) error_clipped
    else map1 mse_loss error_clipped
  let value_loss_unclipped :=
    if use_huber_loss then map1 (huber_loss huber_delta) error_unclipped
    else map1 mse_loss error_unclipped
  let value_loss := map2 max value_loss_clipped value_loss_unclipped
  let ms := sum2 mask
  if ms = 0 then none
  else some (sum2 (map2 (· * ·) value_loss mask) / ms * value_loss_coef)

/-- `cal_policy_loss` (source lines 53-67) on one chunk, tensors again
(chunk × flattened-token-stream).  Returns the triple
(policy_loss, approx_kl, entropy_value) of masked means, or `none` (NaN) when the
chunk's token mask sums to zero. -/
noncomputable def cal_policy_loss (clip_param entropy_coef : ℝ)
    (log_prob_infer log_prob_batch advantages entropy mask : Mat) :
    Option (ℝ × ℝ × ℝ) :=
  let log_ratio := map2 (· - ·) log_prob_infer log_prob_batch
  let imp_weights := map1 Real.exp log_ratio
  let approx_kl := map2 (fun w r => w - 1 - r) imp_weights log_ratio
  let surr1 := map2 (fun w a => -clampR w (1 - clip_param) (1 + clip_param) * a)
    imp_weights advantages
  let surr2 := map2 (fun w a => -(w * a)) imp_weights advantages
  let surr := map2 max surr1 surr2
  let policy_loss := map2 (fun s e => s - entropy_coef * e) surr entropy
  let ms := sum2 mask
  if ms = 0 then none
  else some (sum2 (map2 (· * ·) policy_loss mask) / ms,
             sum2 (map2 (· * ·) approx_kl mask) / ms,
             sum2 (map2 (· * ·) entropy mask) / ms)

/-- Advantage-normalization statistics (source lines 95-98): entries exactly equal
to `0.0` are replaced by NaN, then `np.nanmean` / `np.nanstd` (population std,
`ddof = 0`) reduce over the remaining entries.  When every entry is zero the
statistics are NaN, i.e. `none`. -/
noncomputable def nanMeanStd (l : List ℝ) : Option (ℝ × ℝ) :=
  let nz := l.filter (· ≠ 0)
  if nz.length = 0 then none
  else
    let m := nz.sum / nz.length
    some (m, Real.sqrt ((nz.map (fun a => (a - m) ^ 2)).sum / nz.length))

/-- The normalized advantage array (source line 99):
`(advantages - mean) / (std + 1e-8)` applied to every entry, zeros included;
`none` when the statistics are NaN (all-zero input). -/
noncomputable def normalizeAdvList (l : List ℝ) : Option (List ℝ) :=
  (nanMeanStd l).map (fun p => l.map (fun a => (a - p.1) / (p.2 + 1e-8)))

/-- Agent-rotation selection (source lines 87-90): for a positive interval,
`agent_to_train = (global_steps // interval + 1) % num_agent`, else `None`. -/
def agent_to_train_sel (interval : ℤ) (num_agent gs : ℕ) : Option ℕ :=
  if 0 < interval then some ((gs / interval.toNat + 1) % num_agent) else none

/-- Restrict a (batch × agents × tokens) tensor to the trained agent:
the source's `[:, a : a + 1]` slice (lines 155-158), a no-op for the joint case. -/
def sliceAgent (a? : Option ℕ) (t : Ten3) : Ten3 :=
  match a? with
  | none => t
  | some a => t.map (fun s => (s.drop a).take 1)

/-- The chunk start offsets and slices of the gradient-accumulation loop
(source line 115: `for start in range(0, batch_size, cp_batch_size)` with
`end = min(start + cp_batch_size, batch_size)`): chunk `s` of `l` is
`l[s : s + cp]`.  `batch` is `batch_size`, the loop bound. -/
def chunksOf (batch cp : ℕ) (l : List α) : List (List α) :=
  (List.range' 0 ((batch + cp - 1) / cp) cp).map (fun s => (l.drop s).take cp)

/-- The weighted gradient-accumulation fold (source lines 115-126 / 145-166):
each chunk's scalar is weighted by `(end - start) / batch_size` and the weighted
scalars are summed; a NaN chunk poisons the total. -/
noncomputable def weightedAccum (B : ℝ) (f : List ρ → Option ℝ)
    (chunks : List (List ρ)) : Option ℝ :=
  chunks.foldr (fun c acc => optAdd ((f c).map (fun x => x * (c.length / B))) acc) (some 0)

/-- One sample's slice of the data consumed by the critic loop, flattened to
token streams. -/
structure ValueRow where
  vi : List ℝ
  vp : List ℝ
  ret : List ℝ
  mask : List ℝ

/-- Zip the four critic-side tensors into per-sample rows. -/
def valueRows : Ten3 → Ten3 → Ten3 → Ten3 → List ValueRow
  | a :: as, b :: bs, c :: cs, d :: ds =>
      ⟨flat2 a, flat2 b, flat2 c, flat2 d⟩ :: valueRows as bs cs ds
  | _, _, _, _ => []

/-- One sample's slice of the data consumed by the policy loop (after the
agent-restriction slice), flattened to token streams. -/
structure PolicyRow where
  lpi : List ℝ
  lpo : List ℝ
  adv : List ℝ
  ent : List ℝ
  mask : List ℝ

/-- Zip the five policy-side tensors into per-sample rows. -/
def policyRows : Ten3 → Ten3 → Ten3 → Ten3 → Ten3 → List PolicyRow
  | a :: as, b :: bs, c :: cs, d :: ds, e :: es =>
      ⟨flat2 a, flat2 b, flat2 c, flat2 d, flat2 e⟩ :: policyRows as bs cs ds es
  | _, _, _, _, _ => []

/-- `cal_value_loss` applied to one chunk of rows. -/
noncomputable def valueChunkLoss (clip_param value_loss_coef huber_delta : ℝ)
    (use_huber_loss : Bool) (c : List ValueRow) : Option ℝ :=
  cal_value_loss clip_param value_loss_coef huber_delta use_huber_loss
    (c.map ValueRow.vi) (c.map ValueRow.vp) (c.map ValueRow.ret) (c.map ValueRow.mask)

/-- `cal_policy_loss` applied to one chunk of rows. -/
noncomputable def policyChunkTriple (clip_param entropy_coef : ℝ)
    (c : List PolicyRow) : Option (ℝ × ℝ × ℝ) :=
  cal_policy_loss clip_param entropy_coef
    (c.map PolicyRow.lpi) (c.map PolicyRow.lpo) (c.map PolicyRow.adv)
    (c.map PolicyRow.ent) (c.map PolicyRow.mask)

/-- The policy-loss component of a chunk (`cp_policy_loss`). -/
noncomputable def policyChunkLoss (clip_param entropy_coef : ℝ)
    (c : List PolicyRow) : Option ℝ :=
  (policyChunkTriple clip_param entropy_coef c).map (fun t => t.1)

/-- The approximate-KL component of a chunk (`approx_kl`). -/
noncomputable def policyChunkKl (clip_param entropy_coef : ℝ)
    (c : List PolicyRow) : Option ℝ :=
  (policyChunkTriple clip_param entropy_coef c).map (fun t => t.2.1)

/-- The entropy component of a chunk (`cp_entropy`). -/
noncomputable def policyChunkEntropy (clip_param entropy_coef : ℝ)
    (c : List PolicyRow) : Option ℝ :=
  (policyChunkTriple clip_param entropy_coef c).map (fun t => t.2.2)

/-- The trainer hyperparameters read by `ppo_update` / `train`
(subset of `TPPOTrainer.__init__` that the update path consumes). -/
structure Config where
  warmup_steps : ℕ
  agent_iteration_interval : ℤ
  clip_param : ℝ
  entropy_coef : ℝ
  value_loss_coef : ℝ
  huber_delta : ℝ
  use_huber_loss : Bool
  use_max_grad_norm : Bool
  num_agent : ℕ
  gradient_cp_steps : ℕ
  ppo_epoch : ℕ
  pad_token : ℤ

/-- Outputs of the external collaborators for the current minibatch: the critic
values (`get_token_values`, full batch, sliced per chunk), the per-agent gathered
log-probabilities and per-agent entropies derived from `get_token_logits`
(full batch, sliced per chunk and per trained agent), and the gradient norms
reported by `clip_grad_norm_` / `get_gard_norm`. -/
structure Oracle where
  valuesInfer : Ten3
  logProbInfer : Ten3
  entropyInfer : Ten3
  criticGradNorm : ℝ
  policyGradNorm : ℕ → ℝ

/-- One minibatch sample (the fields of the 8-tuple that `ppo_update` reads;
`batch` is `rollout_observations.shape[0]`, the shared leading dimension). -/
structure Sample where
  batch : ℕ
  logProbs : Ten3
  valuePreds : Ten3
  returns : Ten3
  advantages : Ten3
  actionTokens : List (List (List ℤ))

/-- The observable outcome of one `ppo_update` call: the six returned scalars
plus ghost fields recording the optimizer side effects.  `policy_steps` lists the
indices of the agents whose policy optimizer stepped, in order;
`critic_clip_applied` / `policy_clip_applied` record whether `clip_grad_norm_`
(as opposed to a measurement without clipping) was invoked on the respective
gradients; `policy_forward_ran` records whether the policy forward/backward loop
executed; `total_policy_grad_norm` mirrors the local accumulator of the same
name; `agent_to_train` mirrors the rotation choice. -/
structure UpdateOut where
  value_loss : Option ℝ
  critic_grad_norm : ℝ
  policy_loss : Option ℝ
  policy_grad_norm : ℝ
  approx_kl : Option ℝ
  entropy : Option ℝ
  critic_stepped : Bool
  critic_clip_applied : Bool
  policy_steps : List ℕ
  policy_clip_applied : Bool
  policy_forward_ran : Bool
  total_policy_grad_norm : ℝ
  agent_to_train : Option ℕ

/-- `cp_batch_size` (source lines 106-109): `batch_size // gradient_cp_steps`,
floored to 1 when that quotient is zero. -/
def cpBatchSize (batch steps : ℕ) : ℕ :=
  max 1 (batch / steps)

/-- The critic-side accumulated `value_loss` of `ppo_update`
(source lines 113-126). -/
noncomputable def valueLossAccum (cfg : Config) (orc : Oracle) (s : Sample) : Option ℝ :=
  let mask := cal_token_mask cfg.pad_token s.actionTokens
  weightedAccum s.batch
    (valueChunkLoss cfg.clip_param cfg.value_loss_coef cfg.huber_delta cfg.use_huber_loss)
    (chunksOf s.batch (cpBatchSize s.batch cfg.gradient_cp_steps)
      (valueRows orc.valuesInfer s.valuePreds s.returns mask))

/-- The policy-side rows of the accumulation loop: agent-restricted slices of the
gathered log-probabilities, stored log-probabilities, a given advantage tensor,
entropies and token mask (source lines 150-160). -/
noncomputable def policyRowsOf (cfg : Config) (orc : Oracle) (s : Sample) (gs : ℕ)
    (advT : Ten3) : List PolicyRow :=
  let a? := agent_to_train_sel cfg.agent_iteration_interval cfg.num_agent gs
  let mask := cal_token_mask cfg.pad_token s.actionTokens
  policyRows (sliceAgent a? orc.logProbInfer) (sliceAgent a? s.logProbs)
    (sliceAgent a? advT) (sliceAgent a? orc.entropyInfer) (sliceAgent a? mask)

/-- `total_approx_kl` accumulated over the policy chunks (source line 162).
The approximate KL does not read the advantages, so the raw advantage tensor
stands in for the (possibly NaN) normalized one; `cal_policy_loss_kl_indep_adv`
below proves the component independent of that argument. -/
noncomputable def totalApproxKl (cfg : Config) (orc : Oracle) (s : Sample) (gs : ℕ) :
    Option ℝ :=
  weightedAccum s.batch (policyChunkKl cfg.clip_param cfg.entropy_coef)
    (chunksOf s.batch (cpBatchSize s.batch cfg.gradient_cp_steps)
      (policyRowsOf cfg orc s gs s.advantages))

/-- `total_entropy` accumulated over the policy chunks (source line 163);
like the KL it does not read the advantages. -/
noncomputable def totalEntropy (cfg : Config) (orc : Oracle) (s : Sample) (gs : ℕ) :
    Option ℝ :=
  weightedAccum s.batch (policyChunkEntropy cfg.clip_param cfg.entropy_coef)
    (chunksOf s.batch (cpBatchSize s.batch cfg.gradient_cp_steps)
      (policyRowsOf cfg orc s gs s.advantages))

/-- The accumulated `policy_loss` (source line 166), which does consume the
normalized advantages: NaN statistics (all-zero advantages) make it NaN. -/
noncomputable def policyLossAccum (cfg : Config) (orc : Oracle) (s : Sample) (gs : ℕ) :
    Option ℝ :=
  match nanMeanStd (flat3 s.advantages) with
  | none => none
  | some p =>
      let advN := s.advantages.map (fun m => m.map (fun r =>
        r.map (fun a => (a - p.1) / (p.2 + 1e-8))))
      weightedAccum s.batch (policyChunkLoss cfg.clip_param cfg.entropy_coef)
        (chunksOf s.batch (cpBatchSize s.batch cfg.gradient_cp_steps)
          (policyRowsOf cfg orc s gs advN))

/-- The KL trust-region gate (source line 168): `total_approx_kl > 1.7e-6`.
A NaN total compares false, as in Python. -/
noncomputable def klGateExceeded : Option ℝ → Bool
  | some k => decide (1.7e-6 < k)
  | none => false

/-- `ppo_update` (source lines 85-182).  The critic update always runs and its
optimizer always steps; the warmup gate then short-circuits; otherwise the policy
loop runs, the KL gate may discard the policy step, and otherwise the selected
agent's optimizer (or every agent's, jointly) steps after an unconditional
`clip_grad_norm_`.  In the joint branch the returned `policy_grad_norm` is the
loop variable after the last iteration, i.e. the last agent's norm. -/
noncomputable def ppo_update (cfg : Config) (orc : Oracle) (s : Sample) (gs : ℕ) :
    UpdateOut :=
  let aOpt := agent_to_train_sel cfg.agent_iteration_interval cfg.num_agent gs
  let vLoss := valueLossAccum cfg orc s
  if gs < cfg.warmup_steps then
    { value_loss := vLoss
      critic_grad_norm := orc.criticGradNorm
      policy_loss := some 0
      policy_grad_norm := 0
      approx_kl := some 0
      entropy := some 0
      critic_stepped := true
      critic_clip_applied := cfg.use_max_grad_norm
      policy_steps := []
      policy_clip_applied := false
      policy_forward_ran := false
      total_policy_grad_norm := 0
      agent_to_train := aOpt }
  else
    let kl := totalApproxKl cfg orc s gs
    let ev := totalEntropy cfg orc s gs
    let pl := policyLossAccum cfg orc s gs
    if klGateExceeded kl then
      { value_loss := vLoss
        critic_grad_norm := orc.criticGradNorm
        policy_loss := some 0
        policy_grad_norm := 0
        approx_kl := kl
        entropy := ev
        critic_stepped := true
        critic_clip_applied := cfg.use_max_grad_norm
        policy_steps := []
        policy_clip_applied := false
        policy_forward_ran := true
        total_policy_grad_norm := 0
        agent_to_train := aOpt }
    else
      match aOpt with
      | some a =>
          { value_loss := vLoss
            critic_grad_norm := orc.criticGradNorm
            policy_loss := pl
            policy_grad_norm := orc.policyGradNorm a
            approx_kl := kl
            entropy := ev
            critic_stepped := true
            critic_clip_applied := cfg.use_max_grad_norm
            policy_steps := [a]
            policy_clip_applied := true
            policy_forward_ran := true
            total_policy_grad_norm := orc.policyGradNorm a
            agent_to_train := some a }
      | none =>
          { value_loss := vLoss
            critic_grad_norm := orc.criticGradNorm
            policy_loss := pl
            policy_grad_norm := orc.policyGradNorm (cfg.num_agent - 1)
            approx_kl := kl
            entropy := ev
            critic_stepped := true
            critic_clip_applied := cfg.use_max_grad_norm
            policy_steps := List.range cfg.num_agent
            policy_clip_applied := true
            policy_forward_ran := true
            total_policy_grad_norm :=
              ((List.range cfg.num_agent).map orc.policyGradNorm).sum
            agent_to_train := none }

/-- The averaged diagnostics mapping returned by `train` (source lines 191-198). -/
structure TrainInfo where
  value_loss : Option ℝ
  value_grad_norm : ℝ
  policy_loss : Option ℝ
  policy_grad_norm : ℝ
  entropy : Option ℝ
  approx_kl : Option ℝ

/-- `train` (source lines 184-218): `ppo_epoch` passes over the minibatches the
buffer yields (`samples`, the same lazily regenerated sequence each epoch),
summing the six diagnostics, then dividing each by `update_time`.  When no
update ran, `update_time = 0` and the Python division raises
`ZeroDivisionError`; the model returns `none` for that exception. -/
noncomputable def train (cfg : Config) (orc : Oracle) (samples : List Sample)
    (gs : ℕ) : Option TrainInfo :=
  let outs := (List.range cfg.ppo_epoch).flatMap
    (fun _ => samples.map (fun s => ppo_update cfg orc s gs))
  let ut := outs.length
  if ut = 0 then none
  else
    some
      { value_loss := (outs.foldr (fun o a => optAdd o.value_loss a) (some 0)).map
          (fun x => x / ut)
        value_grad_norm := (outs.map UpdateOut.critic_grad_norm).sum / ut
        policy_loss := (outs.foldr (fun o a => optAdd o.policy_loss a) (some 0)).map
          (fun x => x / ut)
        policy_grad_norm := (outs.map UpdateOut.policy_grad_norm).sum / ut
        entropy := (outs.foldr (fun o a => optAdd o.entropy a) (some 0)).map
          (fun x => x / ut)
        approx_kl := (outs.foldr (fun o a => optAdd o.approx_kl a) (some 0)).map
          (fun x => x / ut) }

/-- One sample's per-token policy-loss stream: the per-row view of the
elementwise pipeline of `cal_policy_loss` (lines 55-61), used to state the
gradient-accumulation equivalence per row). -/
noncomputable def polTok (clip ec : ℝ) (r : PolicyRow) : List ℝ :=
  List.zipWith (fun s e => s - ec * e)
    (List.zipWith (fun w a => max (-clampR w (1 - clip) (1 + clip) * a) (-(w * a)))
      (List.zipWith (fun i o => Real.exp (i - o)) r.lpi r.lpo) r.adv)
    r.ent

/-- One sample's per-token value-loss stream: the per-row view of the
elementwise pipeline of `cal_value_loss` (lines 71-80). -/
noncomputable def valTok (clip δ : ℝ) (uh : Bool) (r : ValueRow) : List ℝ :=
  List.zipWith max
    ((List.zipWith (· - ·) r.ret
        (List.zipWith (fun p i => p + clampR (i - p) (-clip) clip) r.vp r.vi)).map
      (fun e => if uh then huber_loss δ e else mse_loss e))
    ((List.zipWith (· - ·) r.ret r.vi).map
      (fun e => if uh then huber_loss δ e else mse_loss e))

/-! ### Concrete instances used by the closed-form checks below -/

/-- A joint-update configuration: no rotation, no warmup, one accumulation chunk,
gradient-norm clipping flag off. -/
noncomputable def cfgJ : Config :=
  { warmup_steps := 0, agent_iteration_interval := 0, clip_param := 0.2,
    entropy_coef := 0, value_loss_coef := 1, huber_delta := 10,
    use_huber_loss := false, use_max_grad_norm := false, num_agent := 2,
    gradient_cp_steps := 1, ppo_epoch := 1, pad_token := 0 }

/-- A rotating configuration: interval 3, two agents. -/
noncomputable def cfgR : Config :=
  { cfgJ with agent_iteration_interval := 3 }

/-- A warmup configuration: one warmup step. -/
noncomputable def cfgW : Config :=
  { cfgJ with warmup_steps := 1 }

/-- A configuration with zero PPO epochs. -/
noncomputable def cfgE0 : Config :=
  { cfgJ with ppo_epoch := 0 }

/-- Oracle whose policy log-probabilities equal the stored ones (ratio 1). -/
noncomputable def orcZ : Oracle :=
  { valuesInfer := [[[0], [0]]], logProbInfer := [[[0], [0]]],
    entropyInfer := [[[0], [0]]], criticGradNorm := 0,
    policyGradNorm := fun i => (i : ℝ) }

/-- Oracle whose policy log-probabilities exceed the stored ones by 1
(importance ratio e, approximate KL e - 2 per token). -/
noncomputable def orcE : Oracle :=
  { orcZ with logProbInfer := [[[1], [1]]] }

/-- A one-sample minibatch: two agents, one real (non-pad) action token each. -/
noncomputable def sZ : Sample :=
  { batch := 1, logProbs := [[[0], [0]]], valuePreds := [[[0], [0]]],
    returns := [[[0], [0]]], advantages := [[[1], [1]]],
    actionTokens := [[[5], [5]]] }

end TPPO

namespace TPPO

/-! ### Elementwise-operation fusion lemmas -/

theorem zipWith_same {α β γ γ' δ : Type} (f : α → β → γ) (g : α → β → γ')
    (h : γ → γ' → δ) (a : List α) (b : List β) :
    List.zipWith h (List.zipWith f a b) (List.zipWith g a b)
      = List.zipWith (fun x y => h (f x y) (g x y)) a b := by
  induction a generalizing b with
  | nil => simp
  | cons x xs ih => cases b <;> simp [ih]

theorem zipWith_map_self {α β : Type} (e : α → β) (h : β → α → β) (l : List α) :
    List.zipWith h (l.map e) l = l.map (fun x => h (e x) x) := by
  induction l with
  | nil => simp
  | cons x xs ih => simp [ih]

theorem map1_map2 (g : ℝ → ℝ) (f : ℝ → ℝ → ℝ) (a b : Mat) :
    map1 g (map2 f a b) = map2 (fun x y => g (f x y)) a b := by
  unfold map1 map2
  rw [List.map_zipWith]
  congr 1
  funext x y
  exact List.map_zipWith _ _ _ _

theorem map2_same (f g h : ℝ → ℝ → ℝ) (a b : Mat) :
    map2 h (map2 f a b) (map2 g a b) = map2 (fun x y => h (f x y) (g x y)) a b := by
  unfold map2
  rw [zipWith_same]
  congr 1
  funext x y
  exact zipWith_same f g h x y

theorem map2_map1_left (e : ℝ → ℝ) (h : ℝ → ℝ → ℝ) (m : Mat) :
    map2 h (map1 e m) m = map1 (fun x => h (e x) x) m := by
  unfold map1 map2
  rw [zipWith_map_self]
  congr 1
  funext r
  exact zipWith_map_self e h r

theorem map2_congr {f g : ℝ → ℝ → ℝ} (h : ∀ x y, f x y = g x y) (a b : Mat) :
    map2 f a b = map2 g a b := by
  have : f = g := by funext x y; exact h x y
  rw [this]

/-- The approximate-KL and entropy components of `cal_policy_loss` do not read the
advantage tensor: substituting the raw advantages for the normalized ones inside
`totalApproxKl` / `totalEntropy` is value-preserving. -/
theorem cal_policy_loss_kl_ent_indep_adv (clip ec : ℝ) (lpi lpo adv adv' ent mask : Mat) :
    (cal_policy_loss clip ec lpi lpo adv ent mask).map (fun t => t.2.1)
      = (cal_policy_loss clip ec lpi lpo adv' ent mask).map (fun t => t.2.1)
    ∧ (cal_policy_loss clip ec lpi lpo adv ent mask).map (fun t => t.2.2)
      = (cal_policy_loss clip ec lpi lpo adv' ent mask).map (fun t => t.2.2) := by
  unfold cal_policy_loss
  by_cases h : sum2 mask = 0 <;> simp [h]

/-! ### Chunking lemmas -/

theorem chunksOf_zero {α : Type} (cp : ℕ) (l : List α) : chunksOf 0 cp l = [] := by
  unfold chunksOf
  have h : (0 + cp - 1) / cp = 0 := by
    rcases Nat.eq_zero_or_pos cp with h | h
    · subst h; rfl
    · exact Nat.div_eq_of_lt (by omega)
  rw [h]
  rfl

theorem chunksOf_succ {α : Type} {n cp : ℕ} (hcp : 0 < cp) (hn : 0 < n) (l : List α) :
    chunksOf n cp l = l.take cp :: chunksOf (n - cp) cp (l.drop cp) := by
  unfold chunksOf
  have hdiv : (n + cp - 1) / cp = (n - cp + cp - 1) / cp + 1 := by
    rcases le_or_lt n cp with h | h
    · have h1 : (n + cp - 1) / cp = 1 :=
        Nat.div_eq_of_lt_le (by omega) (by omega)
      have h2 : n - cp = 0 := by omega
      have h3 : (0 + cp - 1) / cp = 0 := Nat.div_eq_of_lt (by omega)
      rw [h1, h2, h3]
    · have heq : n + cp - 1 = (n - cp + cp - 1) + cp := by omega
      rw [heq, Nat.add_div_right _ hcp]
  rw [hdiv, List.range'_succ]
  simp only [List.map_cons, List.drop_zero, Nat.zero_add]
  congr 1
  have hr : List.range' cp ((n - cp + cp - 1) / cp) cp
      = (List.range' 0 ((n - cp + cp - 1) / cp) cp).map (cp + ·) := by
    rw [List.map_add_range', Nat.add_zero]
  rw [hr, List.map_map]
  congr 1
  funext s
  simp [List.drop_drop, Nat.add_comm]

theorem weightedAccum_nil {ρ : Type} (B : ℝ) (f : List ρ → Option ℝ) :
    weightedAccum B f [] = some 0 := rfl

theorem weightedAccum_cons {ρ : Type} (B : ℝ) (f : List ρ → Option ℝ)
    (c : List ρ) (cs : List (List ρ)) :
    weightedAccum B f (c :: cs)
      = optAdd ((f c).map (fun x => x * (c.length / B))) (weightedAccum B f cs) := rfl

/-! ### Branch characterizations of `ppo_update` -/

theorem ppo_update_warmup (cfg : Config) (orc : Oracle) (s : Sample) (gs : ℕ)
    (h : gs < cfg.warmup_steps) :
    ppo_update cfg orc s gs =
      { value_loss := valueLossAccum cfg orc s
        critic_grad_norm := orc.criticGradNorm
        policy_loss := some 0
        policy_grad_norm := 0
        approx_kl := some 0
        entropy := some 0
        critic_stepped := true
        critic_clip_applied := cfg.use_max_grad_norm
        policy_steps := []
        policy_clip_applied := false
        policy_forward_ran := false
        total_policy_grad_norm := 0
        agent_to_train := agent_to_train_sel cfg.agent_iteration_interval cfg.num_agent gs } := by
  simp [ppo_update, h]

theorem ppo_update_gated (cfg : Config) (orc : Oracle) (s : Sample) (gs : ℕ)
    (hw : ¬ gs < cfg.warmup_steps)
    (hk : klGateExceeded (totalApproxKl cfg orc s gs) = true) :
    ppo_update cfg orc s gs =
      { value_loss := valueLossAccum cfg orc s
        critic_grad_norm := orc.criticGradNorm
        policy_loss := some 0
        policy_grad_norm := 0
        approx_kl := totalApproxKl cfg orc s gs
        entropy := totalEntropy cfg orc s gs
        critic_stepped := true
        critic_clip_applied := cfg.use_max_grad_norm
        policy_steps := []
        policy_clip_applied := false
        policy_forward_ran := true
        total_policy_grad_norm := 0
        agent_to_train := agent_to_train_sel cfg.agent_iteration_interval cfg.num_agent gs } := by
  simp [ppo_update, hw, hk]

theorem ppo_update_step_some (cfg : Config) (orc : Oracle) (s : Sample) (gs a : ℕ)
    (hw : ¬ gs < cfg.warmup_steps)
    (hk : klGateExceeded (totalApproxKl cfg orc s gs) = false)
    (ha : agent_to_train_sel cfg.agent_iteration_interval cfg.num_agent gs = some a) :
    ppo_update cfg orc s gs =
      { value_loss := valueLossAccum cfg orc s
        critic_grad_norm := orc.criticGradNorm
        policy_loss := policyLossAccum cfg orc s gs
        policy_grad_norm := orc.policyGradNorm a
        approx_kl := totalApproxKl cfg orc s gs
        entropy := totalEntropy cfg orc s gs
        critic_stepped := true
        critic_clip_applied := cfg.use_max_grad_norm
        policy_steps := [a]
        policy_clip_applied := true
        policy_forward_ran := true
        total_policy_grad_norm := orc.policyGradNorm a
        agent_to_train := some a } := by
  simp [ppo_update, hw, hk, ha]

theorem ppo_update_step_none (cfg : Config) (orc : Oracle) (s : Sample) (gs : ℕ)
    (hw : ¬ gs < cfg.warmup_steps)
    (hk : klGateExceeded (totalApproxKl cfg orc s gs) = false)
    (ha : agent_to_train_sel cfg.agent_iteration_interval cfg.num_agent gs = none) :
    ppo_update cfg orc s gs =
      { value_loss := valueLossAccum cfg orc s
        critic_grad_norm := orc.criticGradNorm
        policy_loss := policyLossAccum cfg orc s gs
        policy_grad_norm := orc.policyGradNorm (cfg.num_agent - 1)
        approx_kl := totalApproxKl cfg orc s gs
        entropy := totalEntropy cfg orc s gs
        critic_stepped := true
        critic_clip_applied := cfg.use_max_grad_norm
        policy_steps := List.range cfg.num_agent
        policy_clip_applied := true
        policy_forward_ran := true
        total_policy_grad_norm := ((List.range cfg.num_agent).map orc.policyGradNorm).sum
        agent_to_train := none } := by
  simp [ppo_update, hw, hk, ha]

end TPPO

namespace TPPO

/-! ### KL-gate helpers -/

theorem klGate_true_of {o : Option ℝ} {k : ℝ} (h : o = some k) (hk : 1.7e-6 < k) :
    klGateExceeded o = true := by
  subst h; simp [klGateExceeded, hk]

theorem klGate_false_of {o : Option ℝ} {k : ℝ} (h : o = some k) (hk : ¬ 1.7e-6 < k) :
    klGateExceeded o = false := by
  subst h; simp [klGateExceeded, hk]

/-- Every branch of `ppo_update` reports the same agent-rotation choice. -/
theorem ppo_update_agent_to_train (cfg : Config) (orc : Oracle) (s : Sample) (gs : ℕ) :
    (ppo_update cfg orc s gs).agent_to_train
      = agent_to_train_sel cfg.agent_iteration_interval cfg.num_agent gs := by
  by_cases hw : gs < cfg.warmup_steps
  · rw [ppo_update_warmup cfg orc s gs hw]
  · by_cases hk : klGateExceeded (totalApproxKl cfg orc s gs) = true
    · rw [ppo_update_gated cfg orc s gs hw hk]
    · have hk' : klGateExceeded (totalApproxKl cfg orc s gs) = false := by
        simpa using hk
      rcases ha : agent_to_train_sel cfg.agent_iteration_interval cfg.num_agent gs with _ | a
      · rw [ppo_update_step_none cfg orc s gs hw hk' ha]
      · rw [ppo_update_step_some cfg orc s gs a hw hk' ha]

/-- C4: for agent_iteration_interval = I > 0 and num_agents = N, `ppo_update`
selects `agent_to_train = (global_steps // I + 1) mod N`; on the window
`[k·I, (k+1)·I)` this is `(k+1) mod N`; for I ≤ 0 the selection is none and all
agents are updated jointly. -/
theorem agent_rotation_claim (cfg : Config) (orc : Oracle) (s : Sample)
    (gs k : ℕ) (hN : 0 < cfg.num_agent) :
    (0 < cfg.agent_iteration_interval →
      k * cfg.agent_iteration_interval.toNat ≤ gs →
      gs < (k + 1) * cfg.agent_iteration_interval.toNat →
      (ppo_update cfg orc s gs).agent_to_train = some ((k + 1) % cfg.num_agent))
    ∧ (cfg.agent_iteration_interval ≤ 0 →
      (ppo_update cfg orc s gs).agent_to_train = none) := by
  constructor
  · intro hI hlo hhi
    rw [ppo_update_agent_to_train]
    unfold agent_to_train_sel
    rw [if_pos hI]
    rw [Nat.div_eq_of_lt_le hlo hhi]
  · intro hI
    rw [ppo_update_agent_to_train]
    unfold agent_to_train_sel
    rw [if_neg (not_lt.mpr hI)]

theorem agent_rotation_claim_witness :
    (0 < cfgR.num_agent ∧ 0 < cfgR.agent_iteration_interval
      ∧ 1 * cfgR.agent_iteration_interval.toNat ≤ 4
      ∧ 4 < (1 + 1) * cfgR.agent_iteration_interval.toNat)
    ∧ (ppo_update cfgR orcZ sZ 4).agent_to_train = some 0 := by
  refine ⟨⟨by norm_num [cfgR, cfgJ], by norm_num [cfgR, cfgJ],
    by decide, by decide⟩, ?_⟩
  have h := (agent_rotation_claim cfgR orcZ sZ 4 1 (by norm_num [cfgR, cfgJ])).1
    (by norm_num [cfgR, cfgJ]) (by decide) (by decide)
  simpa [cfgR, cfgJ] using h

/-- C5: during warmup (global_steps < warmup_steps) `ppo_update` performs the full
critic update (accumulated value loss, measured gradient norm, critic optimizer
step) and returns (value_loss, critic_grad_norm, 0, 0, 0, 0) without running the
policy forward/backward loop or stepping any policy optimizer. -/
theorem warmup_gate_claim (cfg : Config) (orc : Oracle) (s : Sample) (gs : ℕ)
    (h : gs < cfg.warmup_steps) :
    (ppo_update cfg orc s gs).value_loss = valueLossAccum cfg orc s
    ∧ (ppo_update cfg orc s gs).critic_grad_norm = orc.criticGradNorm
    ∧ (ppo_update cfg orc s gs).critic_stepped = true
    ∧ (ppo_update cfg orc s gs).policy_loss = some 0
    ∧ (ppo_update cfg orc s gs).policy_grad_norm = 0
    ∧ (ppo_update cfg orc s gs).approx_kl = some 0
    ∧ (ppo_update cfg orc s gs).entropy = some 0
    ∧ (ppo_update cfg orc s gs).policy_steps = []
    ∧ (ppo_update cfg orc s gs).policy_forward_ran = false := by
  rw [ppo_update_warmup cfg orc s gs h]
  exact ⟨rfl, rfl, rfl, rfl, rfl, rfl, rfl, rfl, rfl⟩

theorem warmup_gate_claim_witness :
    (0 : ℕ) < cfgW.warmup_steps
    ∧ (ppo_update cfgW orcZ sZ 0).policy_loss = some 0
    ∧ (ppo_update cfgW orcZ sZ 0).policy_forward_ran = false := by
  have h := warmup_gate_claim cfgW orcZ sZ 0 (by norm_num [cfgW, cfgJ])
  exact ⟨by norm_num [cfgW, cfgJ], h.2.2.2.1, h.2.2.2.2.2.2.2.2⟩

/-- C3: advantage normalization excludes entries exactly equal to 0.0 from the
mean/std statistics, then transforms every entry (zeros included) by
`(a - mean) / (std + 1e-8)`; the output has the input's length, and with at
least two distinct non-zero entries the statistics and every normalized value
are defined (no NaN: the standard deviation is a real number ≥ 0 and the
divisor `std + 1e-8` is non-zero). -/
theorem advantage_normalization_claim (l : List ℝ) (x y : ℝ)
    (hx : x ∈ l) (hx0 : x ≠ 0) (hy : y ∈ l) (hy0 : y ≠ 0) (hxy : x ≠ y) :
    ∃ m sd, nanMeanStd l = some (m, sd)
      ∧ m = (l.filter (· ≠ 0)).sum / (l.filter (· ≠ 0)).length
      ∧ sd = Real.sqrt (((l.filter (· ≠ 0)).map (fun a => (a - m) ^ 2)).sum
          / (l.filter (· ≠ 0)).length)
      ∧ 0 ≤ sd ∧ sd + 1e-8 ≠ 0
      ∧ normalizeAdvList l = some (l.map (fun a => (a - m) / (sd + 1e-8)))
      ∧ ∀ out, normalizeAdvList l = some out → out.length = l.length := by
  have hf : x ∈ l.filter (· ≠ 0) := List.mem_filter.mpr ⟨hx, by simpa using hx0⟩
  have hne : ¬ (l.filter (· ≠ 0)).length = 0 := by
    intro h
    rw [List.length_eq_zero] at h
    rw [h] at hf
    exact (List.not_mem_nil x) hf
  have hstat : nanMeanStd l = some ((l.filter (· ≠ 0)).sum / (l.filter (· ≠ 0)).length,
      Real.sqrt (((l.filter (· ≠ 0)).map
        (fun a => (a - (l.filter (· ≠ 0)).sum / (l.filter (· ≠ 0)).length) ^ 2)).sum
        / (l.filter (· ≠ 0)).length)) := by
    simp only [nanMeanStd]
    rw [if_neg hne]
  refine ⟨_, _, hstat, rfl, rfl, Real.sqrt_nonneg _, by positivity, ?_, ?_⟩
  · simp [normalizeAdvList, hstat]
  · intro out hout
    simp only [normalizeAdvList, hstat, Option.map_some'] at hout
    rw [← Option.some.inj hout, List.length_map]

theorem advantage_normalization_claim_witness :
    ((1 : ℝ) ∈ [(1 : ℝ), -1, 0] ∧ (1 : ℝ) ≠ 0 ∧ (-1 : ℝ) ∈ [(1 : ℝ), -1, 0]
      ∧ (-1 : ℝ) ≠ 0 ∧ (1 : ℝ) ≠ -1)
    ∧ ∃ m sd, nanMeanStd [(1 : ℝ), -1, 0] = some (m, sd) := by
  refine ⟨⟨by simp, by norm_num, by simp, by norm_num, by norm_num⟩, ?_⟩
  obtain ⟨m, sd, h, -⟩ := advantage_normalization_claim [(1 : ℝ), -1, 0] 1 (-1)
    (by simp) (by norm_num) (by simp) (by norm_num) (by norm_num)
  exact ⟨m, sd, h⟩

/-- C6 evaluation: with an all-zero token mask both loss reductions divide
`0 / 0`: the result is NaN (`none`), not a guarded no-op — the source has no
check on `token_mask.sum()` before dividing. -/
theorem zero_mask_nan_claim (clip ec coef δ : ℝ) (uh : Bool)
    (lpi lpo adv ent vi vp ret : Mat) :
    cal_policy_loss clip ec lpi lpo adv ent [[0]] = none
    ∧ cal_value_loss clip coef δ uh vi vp ret [[0]] = none := by
  constructor
  · simp [cal_policy_loss, sum2]
  · simp [cal_value_loss, sum2]

theorem flatMap_nil_fun {α β : Type} (l : List α) :
    (l.flatMap (fun _ => ([] : List β))) = [] := by
  induction l with
  | nil => rfl
  | cons x xs ih => simp [List.flatMap_cons, ih]

/-- C10: when no minibatch update runs (zero epochs, or the buffer yields no
minibatches in any epoch), `train` divides its accumulated diagnostics by
`update_time = 0` and raises instead of returning the diagnostics mapping. -/
theorem train_zero_updates_claim (cfg : Config) (orc : Oracle)
    (samples : List Sample) (gs : ℕ) (h : cfg.ppo_epoch = 0 ∨ samples = []) :
    train cfg orc samples gs = none := by
  rcases h with h | h
  · simp [train, h]
  · subst h
    simp [train, flatMap_nil_fun]

theorem train_zero_updates_claim_witness :
    cfgE0.ppo_epoch = 0 ∧ train cfgE0 orcZ [sZ] 0 = none :=
  ⟨rfl, train_zero_updates_claim cfgE0 orcZ [sZ] 0 (Or.inl rfl)⟩

end TPPO

namespace TPPO

theorem chunksOf_singleton {α : Type} (r : α) : chunksOf 1 1 [r] = [[r]] := by
  rw [chunksOf_succ one_pos one_pos]
  simp [chunksOf_zero]

theorem policyRowsOf_Z :
    policyRowsOf cfgJ orcZ sZ 0 sZ.advantages
      = [⟨[0, 0], [0, 0], [1, 1], [0, 0], [1, 1]⟩] := by
  simp [policyRowsOf, cfgJ, orcZ, sZ, agent_to_train_sel, sliceAgent, cal_token_mask,
    policyRows, flat2]

theorem policyRowsOf_E :
    policyRowsOf cfgJ orcE sZ 0 sZ.advantages
      = [⟨[1, 1], [0, 0], [1, 1], [0, 0], [1, 1]⟩] := by
  simp [policyRowsOf, cfgJ, orcE, orcZ, sZ, agent_to_train_sel, sliceAgent, cal_token_mask,
    policyRows, flat2]

/-- The approximate-KL component of a chunk in fused per-token form:
`exp(lpi - lpo) - 1 - (lpi - lpo)` masked-averaged. -/
theorem policyChunkKl_eval (clip ec : ℝ) (c : List PolicyRow)
    (h : ¬ sum2 (c.map PolicyRow.mask) = 0) :
    policyChunkKl clip ec c
      = some (sum2 (map2 (· * ·)
          (map2 (fun i o => Real.exp (i - o) - 1 - (i - o))
            (c.map PolicyRow.lpi) (c.map PolicyRow.lpo))
          (c.map PolicyRow.mask)) / sum2 (c.map PolicyRow.mask)) := by
  unfold policyChunkKl policyChunkTriple
  simp only [cal_policy_loss]
  rw [if_neg h]
  simp only [Option.map_some']
  congr 1
  rw [map2_map1_left, map1_map2]

theorem totalKl_Z : totalApproxKl cfgJ orcZ sZ 0 = some 0 := by
  have hrow : policyChunkKl cfgJ.clip_param cfgJ.entropy_coef
      [⟨[0, 0], [0, 0], [1, 1], [0, 0], [1, 1]⟩] = some 0 := by
    rw [policyChunkKl_eval]
    · norm_num [map2, sum2, Real.exp_zero, List.replicate_succ]
    · norm_num [sum2]
  have hb : sZ.batch = 1 := rfl
  have hcp : cpBatchSize 1 cfgJ.gradient_cp_steps = 1 := rfl
  simp only [totalApproxKl, policyRowsOf_Z, hb, hcp, chunksOf_singleton,
    weightedAccum_cons, weightedAccum_nil, hrow]
  norm_num [optAdd]

theorem totalKl_E : totalApproxKl cfgJ orcE sZ 0 = some (Real.exp 1 - 2) := by
  have hrow : policyChunkKl cfgJ.clip_param cfgJ.entropy_coef
      [⟨[1, 1], [0, 0], [1, 1], [0, 0], [1, 1]⟩] = some (Real.exp 1 - 2) := by
    rw [policyChunkKl_eval]
    · norm_num [map2, sum2]
      ring_nf
    · norm_num [sum2]
  have hb : sZ.batch = 1 := rfl
  have hcp : cpBatchSize 1 cfgJ.gradient_cp_steps = 1 := rfl
  simp only [totalApproxKl, policyRowsOf_E, hb, hcp, chunksOf_singleton,
    weightedAccum_cons, weightedAccum_nil, hrow]
  norm_num [optAdd]

end TPPO

namespace TPPO

/-- C1: past warmup, when the chunk-weighted accumulated approximate KL exceeds
1.7e-6, `ppo_update` discards the policy step: it returns policy_loss = 0 and
policy_grad_norm = 0, still reports the measured approx_kl and entropy, steps no
policy optimizer, and the critic step (already applied before the gate) stands. -/
theorem kl_gate_claim (cfg : Config) (orc : Oracle) (s : Sample) (gs : ℕ) (k : ℝ)
    (hw : cfg.warmup_steps ≤ gs)
    (hk : totalApproxKl cfg orc s gs = some k) (hgt : 1.7e-6 < k) :
    (ppo_update cfg orc s gs).policy_loss = some 0
    ∧ (ppo_update cfg orc s gs).policy_grad_norm = 0
    ∧ (ppo_update cfg orc s gs).approx_kl = some k
    ∧ (ppo_update cfg orc s gs).entropy = totalEntropy cfg orc s gs
    ∧ (ppo_update cfg orc s gs).policy_steps = []
    ∧ (ppo_update cfg orc s gs).critic_stepped = true
    ∧ (ppo_update cfg orc s gs).value_loss = valueLossAccum cfg orc s
    ∧ (ppo_update cfg orc s gs).critic_grad_norm = orc.criticGradNorm := by
  rw [ppo_update_gated cfg orc s gs (not_lt.mpr hw) (klGate_true_of hk hgt)]
  exact ⟨rfl, rfl, hk, rfl, rfl, rfl, rfl, rfl⟩

theorem kl_gate_claim_witness :
    (cfgJ.warmup_steps ≤ 0 ∧ (1.7e-6 : ℝ) < Real.exp 1 - 2)
    ∧ (ppo_update cfgJ orcE sZ 0).policy_loss = some 0
    ∧ (ppo_update cfgJ orcE sZ 0).policy_grad_norm = 0
    ∧ (ppo_update cfgJ orcE sZ 0).approx_kl = some (Real.exp 1 - 2)
    ∧ (ppo_update cfgJ orcE sZ 0).policy_steps = [] := by
  have hgt : (1.7e-6 : ℝ) < Real.exp 1 - 2 := by
    nlinarith [Real.exp_one_gt_d9]
  have h := kl_gate_claim cfgJ orcE sZ 0 (Real.exp 1 - 2)
    (by norm_num [cfgJ]) totalKl_E hgt
  exact ⟨⟨by norm_num [cfgJ], hgt⟩, h.1, h.2.1, h.2.2.1, h.2.2.2.2.1⟩

/-- C9: in the joint-update case with the KL gate passed, the returned
policy_grad_norm is the loop variable left by the last agent in the sequence
(index num_agents - 1), while the accumulated total over all agents is computed
into `total_policy_grad_norm` but is not the returned value. -/
theorem joint_last_grad_norm_claim (cfg : Config) (orc : Oracle) (s : Sample)
    (gs : ℕ) (k : ℝ) (hN : 0 < cfg.num_agent)
    (hI : cfg.agent_iteration_interval ≤ 0)
    (hw : cfg.warmup_steps ≤ gs)
    (hk : totalApproxKl cfg orc s gs = some k) (hle : ¬ 1.7e-6 < k) :
    (ppo_update cfg orc s gs).policy_grad_norm = orc.policyGradNorm (cfg.num_agent - 1)
    ∧ (ppo_update cfg orc s gs).total_policy_grad_norm
        = ((List.range cfg.num_agent).map orc.policyGradNorm).sum
    ∧ (ppo_update cfg orc s gs).policy_steps = List.range cfg.num_agent := by
  have ha : agent_to_train_sel cfg.agent_iteration_interval cfg.num_agent gs = none := by
    unfold agent_to_train_sel
    rw [if_neg (not_lt.mpr hI)]
  rw [ppo_update_step_none cfg orc s gs (not_lt.mpr hw) (klGate_false_of hk hle) ha]
  exact ⟨rfl, rfl, rfl⟩

theorem joint_last_grad_norm_claim_witness :
    (0 < cfgJ.num_agent ∧ cfgJ.agent_iteration_interval ≤ 0 ∧ cfgJ.warmup_steps ≤ 0
      ∧ ¬ (1.7e-6 : ℝ) < 0)
    ∧ (ppo_update cfgJ orcZ sZ 0).policy_grad_norm = orcZ.policyGradNorm (cfgJ.num_agent - 1)
    ∧ (ppo_update cfgJ orcZ sZ 0).total_policy_grad_norm
        = ((List.range cfgJ.num_agent).map orcZ.policyGradNorm).sum := by
  have h := joint_last_grad_norm_claim cfgJ orcZ sZ 0 0 (by norm_num [cfgJ])
    (by norm_num [cfgJ]) (by norm_num [cfgJ]) totalKl_Z (by norm_num)
  exact ⟨⟨by norm_num [cfgJ], by norm_num [cfgJ], by norm_num [cfgJ], by norm_num⟩,
    h.1, h.2.1⟩

/-- C7 counterexample: with `use_max_grad_norm = false` and the KL gate passed,
the policy step still invokes gradient clipping — `clip_grad_norm_` is called
unconditionally on the policy side (source lines 173 and 178), so the claim that
clipping happens only when the flag is enabled is false. -/
theorem grad_clip_flag_claim_counterexample :
    cfgJ.use_max_grad_norm = false
    ∧ (ppo_update cfgJ orcZ sZ 0).policy_steps ≠ []
    ∧ (ppo_update cfgJ orcZ sZ 0).policy_clip_applied = true := by
  have ha : agent_to_train_sel cfgJ.agent_iteration_interval cfgJ.num_agent 0 = none := by
    norm_num [agent_to_train_sel, cfgJ]
  rw [ppo_update_step_none cfgJ orcZ sZ 0 (by norm_num [cfgJ])
    (klGate_false_of totalKl_Z (by norm_num)) ha]
  refine ⟨rfl, ?_, rfl⟩
  norm_num [cfgJ]

/-- C7 amended: when the KL gate passes, `ppo_update` always clips each updated
agent's gradients to max_grad_norm before stepping — the `use_max_grad_norm`
flag has no effect on the policy side and only selects clipping versus plain
measurement for the critic's gradients; the selected agent's optimizer (or every
agent's, jointly) then steps. -/
theorem grad_clip_flag_amended_claim (cfg : Config) (orc : Oracle) (s : Sample)
    (gs : ℕ) (k : ℝ)
    (hw : cfg.warmup_steps ≤ gs)
    (hk : totalApproxKl cfg orc s gs = some k) (hle : ¬ 1.7e-6 < k) :
    (ppo_update cfg orc s gs).policy_clip_applied = true
    ∧ (ppo_update cfg orc s gs).critic_clip_applied = cfg.use_max_grad_norm
    ∧ (∀ a, agent_to_train_sel cfg.agent_iteration_interval cfg.num_agent gs = some a →
        (ppo_update cfg orc s gs).policy_steps = [a])
    ∧ (agent_to_train_sel cfg.agent_iteration_interval cfg.num_agent gs = none →
        (ppo_update cfg orc s gs).policy_steps = List.range cfg.num_agent) := by
  rcases ha : agent_to_train_sel cfg.agent_iteration_interval cfg.num_agent gs with _ | a
  · rw [ppo_update_step_none cfg orc s gs (not_lt.mpr hw) (klGate_false_of hk hle) ha]
    refine ⟨rfl, rfl, ?_, fun _ => rfl⟩
    intro a h
    exact Option.noConfusion h
  · rw [ppo_update_step_some cfg orc s gs a (not_lt.mpr hw) (klGate_false_of hk hle) ha]
    refine ⟨rfl, rfl, ?_, ?_⟩
    · intro b hb
      rw [Option.some.inj hb]
    · intro h
      exact Option.noConfusion h

theorem grad_clip_flag_amended_claim_witness :
    (cfgJ.warmup_steps ≤ 0 ∧ ¬ (1.7e-6 : ℝ) < 0)
    ∧ (ppo_update cfgJ orcZ sZ 0).policy_clip_applied = true
    ∧ (ppo_update cfgJ orcZ sZ 0).critic_clip_applied = cfgJ.use_max_grad_norm := by
  have h := grad_clip_flag_amended_claim cfgJ orcZ sZ 0 0 (by norm_num [cfgJ])
    totalKl_Z (by norm_num)
  exact ⟨⟨by norm_num [cfgJ], by norm_num⟩, h.1, h.2.1⟩

end TPPO

namespace TPPO

/-- C8: with a positive mask sum, `cal_policy_loss` computes the importance
ratio r = exp(log_prob_infer - log_prob_old) per token, the approximate KL
(r - 1) - log r, the per-token loss
max(-clip(r, 1-eps, 1+eps) * A, -r * A) - entropy_coef * entropy, and returns
the masked means sum(value * mask) / sum(mask) of the loss, the approximate KL
and the entropy, in that order. -/
theorem cal_policy_loss_formula_claim (clip ec : ℝ) (lpi lpo adv ent mask : Mat)
    (h : 0 < sum2 mask) :
    cal_policy_loss clip ec lpi lpo adv ent mask =
      some
        (sum2 (map2 (· * ·)
            (map2 (fun pl e => pl - ec * e)
              (map2 (fun r a => max (-clampR r (1 - clip) (1 + clip) * a) (-(r * a)))
                (map2 (fun i o => Real.exp (i - o)) lpi lpo) adv)
              ent)
            mask) / sum2 mask,
         sum2 (map2 (· * ·)
            (map1 (fun r => r - 1 - Real.log r)
              (map2 (fun i o => Real.exp (i - o)) lpi lpo))
            mask) / sum2 mask,
         sum2 (map2 (· * ·) ent mask) / sum2 mask) := by
  simp only [cal_policy_loss]
  rw [if_neg (ne_of_gt h)]
  rw [map1_map2 Real.exp (fun x y => x - y) lpi lpo]
  rw [map2_same, map2_same, map1_map2]
  simp only [Real.log_exp]

theorem cal_policy_loss_formula_claim_witness :
    (0 : ℝ) < sum2 [[1]]
    ∧ ∃ t, cal_policy_loss 0.2 0 [[0]] [[0]] [[0]] [[0]] [[1]] = some t := by
  have h : (0 : ℝ) < sum2 [[1]] := by norm_num [sum2]
  exact ⟨h, ⟨_, cal_policy_loss_formula_claim 0.2 0 [[0]] [[0]] [[0]] [[0]] [[1]] h⟩⟩

end TPPO

namespace TPPO

/-! ### Per-chunk to per-row conversion -/

theorem map2_map_map {ρ : Type} (F : ℝ → ℝ → ℝ) (p q : ρ → List ℝ) (c : List ρ) :
    map2 F (c.map p) (c.map q) = c.map (fun r => List.zipWith F (p r) (q r)) := by
  unfold map2
  rw [List.zipWith_map, List.zipWith_same]

theorem map1_map_map {ρ : Type} (F : ℝ → ℝ) (p : ρ → List ℝ) (c : List ρ) :
    map1 F (c.map p) = c.map (fun r => (p r).map F) := by
  unfold map1
  rw [List.map_map]
  rfl

theorem sum2_map {ρ : Type} (p : ρ → List ℝ) (c : List ρ) :
    sum2 (c.map p) = (c.map (fun r => (p r).sum)).sum := by
  unfold sum2
  rw [List.map_map]
  rfl

theorem cpBatchSize_pos (b s : ℕ) : 0 < cpBatchSize b s :=
  Nat.lt_of_lt_of_le Nat.zero_lt_one (le_max_left 1 (b / s))

theorem chunksOf_pair {α : Type} (a b : α) : chunksOf 2 1 [a, b] = [[a], [b]] := by
  rw [chunksOf_succ Nat.zero_lt_one (by norm_num : (0 : ℕ) < 2)]
  norm_num [chunksOf_singleton]

/-- `policyChunkLoss` as a masked mean of the per-row token losses `polTok`. -/
theorem policyChunkLoss_shape (clip ec : ℝ) (c : List PolicyRow) :
    policyChunkLoss clip ec c =
      if (c.map (fun r => r.mask.sum)).sum = 0 then none
      else some ((c.map (fun r => (List.zipWith (· * ·) (polTok clip ec r) r.mask).sum)).sum
        / (c.map (fun r => r.mask.sum)).sum * 1) := by
  unfold policyChunkLoss policyChunkTriple
  simp only [cal_policy_loss]
  rw [apply_ite (Option.map (fun t : ℝ × ℝ × ℝ => t.1))]
  simp only [Option.map_none', Option.map_some']
  simp only [map1_map2, map2_same, map1_map_map, map2_map_map, sum2_map,
    List.map_zipWith, zipWith_same]
  simp [polTok]

/-- `valueChunkLoss` as a masked mean of the per-row token losses `valTok`,
scaled by `value_loss_coef`. -/
theorem valueChunkLoss_shape (clip coef δ : ℝ) (uh : Bool) (c : List ValueRow) :
    valueChunkLoss clip coef δ uh c =
      if (c.map (fun r => r.mask.sum)).sum = 0 then none
      else some ((c.map (fun r => (List.zipWith (· * ·) (valTok clip δ uh r) r.mask).sum)).sum
        / (c.map (fun r => r.mask.sum)).sum * coef) := by
  unfold valueChunkLoss
  simp only [cal_value_loss]
  cases uh
  · simp only [Bool.false_eq_true, if_false]
    simp only [map2_map_map, map1_map_map, sum2_map]
    simp [valTok]
  · simp only [if_true]
    simp only [map2_map_map, map1_map_map, sum2_map]
    simp [valTok]

end TPPO

namespace TPPO

/-- Gradient-accumulation equivalence, generic form: when every chunk's mask sum
is proportional to its size (`mask sum of chunk = (chunk size / B) * M` with `M`
the full-batch mask sum), the chunk-weighted sum of masked means equals the
single-pass masked mean over the whole list. -/
theorem weightedAccum_proportional {ρ : Type} (g m : ρ → List ℝ) (kS : ℝ)
    (F : List ρ → Option ℝ)
    (hF : ∀ c : List ρ, F c =
      if (c.map (fun r => (m r).sum)).sum = 0 then none
      else some ((c.map (fun r => (List.zipWith (· * ·) (g r) (m r)).sum)).sum
        / (c.map (fun r => (m r).sum)).sum * kS))
    (B M : ℝ) (hB : B ≠ 0) (hM0 : M ≠ 0) (cp : ℕ) (hcp : 0 < cp) :
    ∀ l : List ρ,
      (∀ c ∈ chunksOf l.length cp l,
        (c.map (fun r => (m r).sum)).sum = ((c.length : ℝ) / B) * M) →
      weightedAccum B F (chunksOf l.length cp l)
        = some ((l.map (fun r => (List.zipWith (· * ·) (g r) (m r)).sum)).sum / M * kS) := by
  suffices h : ∀ n (l : List ρ), l.length = n →
      (∀ c ∈ chunksOf l.length cp l,
        (c.map (fun r => (m r).sum)).sum = ((c.length : ℝ) / B) * M) →
      weightedAccum B F (chunksOf l.length cp l)
        = some ((l.map (fun r => (List.zipWith (· * ·) (g r) (m r)).sum)).sum / M * kS) by
    intro l hprop
    exact h l.length l rfl hprop
  intro n
  induction n using Nat.strong_induction_on with
  | _ n ih =>
    intro l hn hprop
    rcases eq_or_ne l [] with hl | hl
    · subst hl
      simp [chunksOf_zero, weightedAccum_nil]
    · have hlen : 0 < l.length := List.length_pos.mpr hl
      have hsucc := chunksOf_succ hcp hlen l
      rw [hsucc, weightedAccum_cons]
      have hc1 : l.take cp ∈ chunksOf l.length cp l := by
        rw [hsucc]
        exact List.mem_cons_self _ _
      have hm1 := hprop _ hc1
      have hlen1 : (((l.take cp).length : ℕ) : ℝ) ≠ 0 := by
        have h1 : 0 < (l.take cp).length := by
          rw [List.length_take]
          exact lt_min hcp hlen
        exact_mod_cast h1.ne'
      have hms1 : ((l.take cp).map (fun r => (m r).sum)).sum ≠ 0 := by
        rw [hm1]
        exact mul_ne_zero (div_ne_zero hlen1 hB) hM0
      rw [hF, if_neg hms1]
      have hdl : (l.drop cp).length = l.length - cp := List.length_drop cp l
      have hprop' : ∀ c ∈ chunksOf (l.drop cp).length cp (l.drop cp),
          (c.map (fun r => (m r).sum)).sum = ((c.length : ℝ) / B) * M := by
        intro c hc
        apply hprop
        rw [hsucc]
        rw [hdl] at hc
        exact List.mem_cons_of_mem _ hc
      have hlt : (l.drop cp).length < n := by
        rw [hdl]
        omega
      have ihd := ih (l.drop cp).length hlt (l.drop cp) rfl hprop'
      rw [hdl] at ihd
      rw [ihd]
      simp only [Option.map_some', optAdd]
      congr 1
      rw [hm1]
      have hsplit : (List.take cp (l.map (fun r => (List.zipWith (· * ·) (g r) (m r)).sum))).sum
            + (List.drop cp (l.map (fun r => (List.zipWith (· * ·) (g r) (m r)).sum))).sum
          = (l.map (fun r => (List.zipWith (· * ·) (g r) (m r)).sum)).sum := by
        conv_rhs => rw [← List.take_append_drop cp
          (l.map (fun r => (List.zipWith (· * ·) (g r) (m r)).sum))]
        rw [List.sum_append]
      field_simp
      rw [← hsplit]
      ring

end TPPO

namespace TPPO

/-- C2 counterexample: batch 2 with gradient_cp_steps = 2 (even division, chunk
size 1), but the second sample has only one unmasked token while the first has
two.  The chunk-weighted accumulated policy loss is 5/2 while the single-pass
policy loss over the whole batch is 2: the per-chunk masked means are not
proportional to chunk sizes, so the claimed equivalence fails. -/
theorem chunk_equivalence_claim_counterexample :
    (2 : ℕ) ∣ 2
    ∧ cpBatchSize 2 2 = 1
    ∧ weightedAccum 2 (policyChunkLoss 0.2 0)
        (chunksOf 2 (cpBatchSize 2 2)
          [⟨[0, 0], [0, 0], [-1, -1], [0, 0], [1, 1]⟩,
           ⟨[0, 0], [0, 0], [-4, 0], [0, 0], [1, 0]⟩])
      = some (5 / 2)
    ∧ policyChunkLoss 0.2 0
        [⟨[0, 0], [0, 0], [-1, -1], [0, 0], [1, 1]⟩,
         ⟨[0, 0], [0, 0], [-4, 0], [0, 0], [1, 0]⟩]
      = some 2
    ∧ (5 / 2 : ℝ) ≠ 2 := by
  have hA : policyChunkLoss 0.2 0
      [(⟨[0, 0], [0, 0], [-1, -1], [0, 0], [1, 1]⟩ : PolicyRow)] = some 1 := by
    rw [policyChunkLoss_shape]
    norm_num [polTok, clampR, max_def, min_def, Real.exp_zero]
  have hB : policyChunkLoss 0.2 0
      [(⟨[0, 0], [0, 0], [-4, 0], [0, 0], [1, 0]⟩ : PolicyRow)] = some 4 := by
    rw [policyChunkLoss_shape]
    norm_num [polTok, clampR, max_def, min_def, Real.exp_zero]
  have hW : policyChunkLoss 0.2 0
      [⟨[0, 0], [0, 0], [-1, -1], [0, 0], [1, 1]⟩,
       ⟨[0, 0], [0, 0], [-4, 0], [0, 0], [1, 0]⟩] = some 2 := by
    rw [policyChunkLoss_shape]
    norm_num [polTok, clampR, max_def, min_def, Real.exp_zero]
  refine ⟨by norm_num, rfl, ?_, hW, by norm_num⟩
  have hcp : cpBatchSize 2 2 = 1 := rfl
  rw [hcp, chunksOf_pair, weightedAccum_cons, weightedAccum_cons, weightedAccum_nil,
    hA, hB]
  norm_num [optAdd]

/-- C2 amended: the chunk-weighted accumulated loss equals the single-pass loss
over the whole batch when, in addition to gradient_cp_steps evenly dividing the
batch size, every chunk's token-mask sum is proportional to its size
(mask sum of chunk = chunk_size / batch_size × total mask sum — e.g. when every
sample has the same number of unmasked tokens) and the total mask sum is
non-zero; with uneven per-sample mask counts the two generally differ.  This
holds for both the policy loss and the value loss as accumulated in
`ppo_update`. -/
theorem chunk_equivalence_amended_claim (clip ec coef δ : ℝ) (uh : Bool)
    (prows : List PolicyRow) (vrows : List ValueRow) (steps : ℕ)
    (hsteps : 0 < steps) (hdvd : steps ∣ prows.length)
    (hvlen : vrows.length = prows.length) (hpne : prows ≠ [])
    (hMp : (prows.map (fun r => r.mask.sum)).sum ≠ 0)
    (hMv : (vrows.map (fun r => r.mask.sum)).sum ≠ 0)
    (hpropP : ∀ c ∈ chunksOf prows.length (cpBatchSize prows.length steps) prows,
      (c.map (fun r => r.mask.sum)).sum
        = ((c.length : ℝ) / (prows.length : ℝ)) * (prows.map (fun r => r.mask.sum)).sum)
    (hpropV : ∀ c ∈ chunksOf vrows.length (cpBatchSize vrows.length steps) vrows,
      (c.map (fun r => r.mask.sum)).sum
        = ((c.length : ℝ) / (vrows.length : ℝ)) * (vrows.map (fun r => r.mask.sum)).sum) :
    weightedAccum (prows.length : ℝ) (policyChunkLoss clip ec)
        (chunksOf prows.length (cpBatchSize prows.length steps) prows)
      = policyChunkLoss clip ec prows
    ∧ weightedAccum (vrows.length : ℝ) (valueChunkLoss clip coef δ uh)
        (chunksOf vrows.length (cpBatchSize vrows.length steps) vrows)
      = valueChunkLoss clip coef δ uh vrows := by
  have hBp : ((prows.length : ℕ) : ℝ) ≠ 0 := by
    have h := List.length_pos.mpr hpne
    exact_mod_cast h.ne'
  have hvne : vrows ≠ [] := by
    intro h
    rw [h] at hvlen
    simp only [List.length_nil] at hvlen
    exact hpne (List.length_eq_zero.mp hvlen.symm)
  have hBv : ((vrows.length : ℕ) : ℝ) ≠ 0 := by
    have h := List.length_pos.mpr hvne
    exact_mod_cast h.ne'
  constructor
  · rw [weightedAccum_proportional (polTok clip ec) PolicyRow.mask 1
      (policyChunkLoss clip ec) (policyChunkLoss_shape clip ec)
      (prows.length : ℝ) ((prows.map (fun r => r.mask.sum)).sum) hBp hMp
      (cpBatchSize prows.length steps) (cpBatchSize_pos _ _) prows hpropP]
    rw [policyChunkLoss_shape, if_neg hMp]
  · rw [weightedAccum_proportional (valTok clip δ uh) ValueRow.mask coef
      (valueChunkLoss clip coef δ uh) (valueChunkLoss_shape clip coef δ uh)
      (vrows.length : ℝ) ((vrows.map (fun r => r.mask.sum)).sum) hBv hMv
      (cpBatchSize vrows.length steps) (cpBatchSize_pos _ _) vrows hpropV]
    rw [valueChunkLoss_shape, if_neg hMv]

theorem chunk_equivalence_amended_claim_witness :
    ((0 : ℕ) < 2
      ∧ (2 : ℕ) ∣ ([⟨[0], [0], [0], [0], [1]⟩,
          ⟨[0], [0], [0], [0], [1]⟩] : List PolicyRow).length)
    ∧ weightedAccum (([⟨[0], [0], [0], [0], [1]⟩,
          ⟨[0], [0], [0], [0], [1]⟩] : List PolicyRow).length : ℝ)
        (policyChunkLoss 0.2 0)
        (chunksOf ([⟨[0], [0], [0], [0], [1]⟩,
            ⟨[0], [0], [0], [0], [1]⟩] : List PolicyRow).length
          (cpBatchSize ([⟨[0], [0], [0], [0], [1]⟩,
            ⟨[0], [0], [0], [0], [1]⟩] : List PolicyRow).length 2)
          [⟨[0], [0], [0], [0], [1]⟩, ⟨[0], [0], [0], [0], [1]⟩])
      = policyChunkLoss 0.2 0
          [⟨[0], [0], [0], [0], [1]⟩, ⟨[0], [0], [0], [0], [1]⟩] := by
  refine ⟨⟨by norm_num, by norm_num⟩, ?_⟩
  refine (chunk_equivalence_amended_claim 0.2 0 1 10 false
    [⟨[0], [0], [0], [0], [1]⟩, ⟨[0], [0], [0], [0], [1]⟩]
    [⟨[0], [0], [0], [1]⟩, ⟨[0], [0], [0], [1]⟩] 2
    (by norm_num) (by norm_num) (by norm_num) (by simp)
    (by norm_num) (by norm_num) ?_ ?_).1
  · intro c hc
    norm_num [cpBatchSize, chunksOf_pair, List.mem_cons] at hc
    rcases hc with rfl | rfl <;> norm_num
  · intro c hc
    norm_num [cpBatchSize, chunksOf_pair, List.mem_cons] at hc
    rcases hc with rfl | rfl <;> norm_num

end TPPO
